import Mathlib

/-!
Shallow embedding of the event store and polling workers of the mht-agent
repository: `src/mhtagentic/db/database.py`,
`src/mhtagentic/db/result_processor.py`, `src/mhtagentic/db/mht_simulator.py`
and `src/mhtagentic/outbound/outbound_worker.py`.

Modelling conventions:
* Timestamps (`datetime.now().isoformat()`) are modelled as `Nat` values
  passed explicitly as a `now` argument to each operation that reads the
  clock.
* JSON documents stored in the TEXT columns are modelled by the structured
  types below, which carry exactly the fields the embedded code reads or
  writes.  A raw payload that `json.loads` cannot parse is the constructor
  `RawPayload.malformed`; Python exceptions are modelled with
  `Except`/`Option` results.
* The SQLite tables are Lean lists kept in rowid (insertion) order, with
  the AUTOINCREMENT counters carried in the state.
-/

/-- One generated PHQ-9 item of the simulated assessment payload.  Only the
score string is read by any embedded operation (the delivery worker's UI
flow); the other generated fields are never read back. -/
structure AssessmentItem where
  assessment_item_score : String
  deriving DecidableEq

/-- One entry of the `assessment` array of an outbound payload, with the
fields the result processor and the simulator touch. -/
structure Assessment where
  assessment_id : Option Nat
  assessment_name : Option String
  assessment_type : Option String
  assessment_items : List AssessmentItem
  total_score_legend : Option String
  total_score_value : Option String
  patient_score_legend_value : Option String
  assessment_clinical_notes : Option String
  flagged_abnormal : Bool
  deriving DecidableEq

/-- The `patient` sub-document of a payload. -/
structure Patient where
  patient_id : Option String
  patient_first_name : Option String
  patient_last_name : Option String
  deriving DecidableEq

/-- The empty dict `{}` used as default when the `patient` key is absent. -/
def Patient.empty : Patient := ⟨none, none, none⟩

/-- The document `raw_data.get('data', raw_data)` resolves to: the fields
read by the result processor and the delivery worker.  A missing key is
`none`. -/
structure DocData where
  patient : Option Patient
  assessment : Option (List Assessment)
  assessment_response_url : Option String
  deriving DecidableEq

/-- The empty dict `{}`. -/
def DocData.empty : DocData := ⟨none, none, none⟩

/-- A raw TEXT payload: either text that `json.loads` rejects (raising
`json.JSONDecodeError`) or a parsed document. -/
inductive RawPayload where
  | malformed
  | parsed (data : DocData)
  deriving DecidableEq

/-- The per-assessment summary built by
`MHTResultProcessor._process_assessment_result`. -/
structure AssessmentSummary where
  assessment_id : Option Nat
  assessment_name : Option String
  assessment_type : Option String
  total_score : Option String
  severity : Option String
  flagged_abnormal : Bool
  clinical_notes : Option String
  item_count : Nat
  deriving DecidableEq

/-- The normalized result summary built by
`MHTResultProcessor._process_assessment_result` and handed to the
registered callback. -/
structure ResultSummary where
  event_id : Nat
  processed_at : Nat
  patient_id : Option String
  patient_name : String
  assessments : List AssessmentSummary
  pdf_url : Option String
  deriving DecidableEq

/-- The `response_data` dict written by
`MHTResultProcessor._process_single_result`. -/
structure ResponseData where
  processed : Bool
  processed_at : Nat
  summary : ResultSummary
  status : String
  deriving DecidableEq

/-- A JSON document stored into the `converted_data` / `response_data`
columns; the different writers store differently shaped documents into the
same TEXT column. -/
inductive Stored where
  | mhtPayload (d : DocData)
  | summaryDoc (s : ResultSummary)
  | responseDoc (r : ResponseData)
  deriving DecidableEq

/-- A row of the `common_event` table. -/
structure Event where
  id : Nat
  received_at : Nat
  direction : Char
  raw_data : Option RawPayload
  converted_at : Option Nat
  converted_data : Option Stored
  sent_at : Option Nat
  response_data : Option Stored
  status : Int
  kind : String
  updated_at : Option Nat
  error_count : Nat
  deriving DecidableEq

/-- A row of the `common_eventerror` table. -/
structure ErrorRecord where
  id : Nat
  created_at : Nat
  error : String
  event_id : Nat
  deriving DecidableEq

/-- The SQLite database: both tables in rowid order plus the AUTOINCREMENT
counters. -/
structure DB where
  events : List Event
  errors : List ErrorRecord
  nextEventId : Nat
  nextErrorId : Nat
  deriving DecidableEq

/-- A freshly created database (`_init_db` creates empty tables;
AUTOINCREMENT ids start at 1). -/
def initDB : DB := ⟨[], [], 1, 1⟩

/-- `UPDATE common_event SET ... WHERE id = i`: applies the row update `f`
to every row whose id matches. -/
def updateWhere (i : Nat) (f : Event → Event) (l : List Event) : List Event :=
  l.map fun e => if e.id = i then f e else e

/-- `cursor.rowcount` of an `UPDATE ... WHERE id = i`: the number of rows
matched. -/
def rowcountId (i : Nat) (l : List Event) : Nat :=
  (l.filter (fun e => e.id = i)).length

/-- Comparison used to model `ORDER BY k`: lexicographic on the pair of the
declared sort key and the row id.  The tables here have no index on the
sort columns, so SQLite scans rows in rowid order and rows with equal keys
come out in id order; a total sort on `(k, id)` reproduces that output. -/
def keyLeB (a b : Nat × Nat) : Bool :=
  decide (a.1 < b.1 ∨ (a.1 = b.1 ∧ a.2 ≤ b.2))

/-- Insert one row into a list sorted by `keyLeB` on key `k`, after any row
with an equal key. -/
def insertByKey (k : Event → Nat × Nat) (e : Event) : List Event → List Event
  | [] => [e]
  | f :: rest =>
      if keyLeB (k f) (k e) then f :: insertByKey k e rest else e :: f :: rest

/-- `ORDER BY` as an insertion sort on key `k` (see `keyLeB`). -/
def sortByKey (k : Event → Nat × Nat) (l : List Event) : List Event :=
  l.foldr (insertByKey k) []

/-- SQLite orders NULL before every non-NULL value; encode an optional
timestamp as a `Nat` preserving that order. -/
def optKey : Option Nat → Nat
  | none => 0
  | some t => t + 1

namespace EventStatus

def INITIAL : Int := 0
def CONVERTED : Int := 10
def READY_TO_SEND : Int := 20
def SENT : Int := 40
def OUTBOUND_READY : Int := 10
def PROCESSING : Int := 50
def COMPLETE : Int := 100
def PENDING : Int := 0
def EXPIRED : Int := 100

/-- The members actually declared on the `EventStatus` IntEnum in
`database.py` (aliases included). -/
def members : List (String × Int) :=
  [("INITIAL", INITIAL), ("CONVERTED", CONVERTED),
   ("READY_TO_SEND", READY_TO_SEND), ("SENT", SENT),
   ("OUTBOUND_READY", OUTBOUND_READY), ("PROCESSING", PROCESSING),
   ("COMPLETE", COMPLETE), ("PENDING", PENDING), ("EXPIRED", EXPIRED)]

/-- Python attribute access `EventStatus.<name>`; `none` models the
`AttributeError` raised when the member does not exist. -/
def attr (name : String) : Option Int :=
  (members.find? (fun p => p.1 == name)).map (·.2)

end EventStatus

namespace MHTDatabase

/-- `MHTDatabase.create_event`: INSERT an inbound row with
`status = EventStatus.PENDING` and return `cursor.lastrowid`. -/
def create_event (db : DB) (raw_data : RawPayload) (kind : String) (now : Nat) :
    Nat × DB :=
  let e : Event :=
    { id := db.nextEventId, received_at := now, direction := 'I',
      raw_data := some raw_data, converted_at := none, converted_data := none,
      sent_at := none, response_data := none, status := EventStatus.PENDING,
      kind := kind, updated_at := some now, error_count := 0 }
  (db.nextEventId,
   { db with events := db.events ++ [e], nextEventId := db.nextEventId + 1 })

/-- `MHTDatabase.update_event_converted`: stamp `converted_at`, store the
converted payload, set `status = EventStatus.CONVERTED`, and report whether
any row was updated. -/
def update_event_converted (db : DB) (event_id : Nat) (converted_data : DocData)
    (now : Nat) : Bool × DB :=
  let events := updateWhere event_id (fun e =>
    { e with converted_at := some now,
             converted_data := some (.mhtPayload converted_data),
             status := EventStatus.CONVERTED, updated_at := some now }) db.events
  (rowcountId event_id db.events > 0, { db with events := events })

/-- `MHTDatabase.update_event_sent`: stamp `sent_at`, store the API
response, set `status = EventStatus.SENT`, and report whether any row was
updated. -/
def update_event_sent (db : DB) (event_id : Nat) (response_data : Stored)
    (now : Nat) : Bool × DB :=
  let events := updateWhere event_id (fun e =>
    { e with sent_at := some now, response_data := some response_data,
             status := EventStatus.SENT, updated_at := some now }) db.events
  (rowcountId event_id db.events > 0, { db with events := events })

/-- `MHTDatabase.expire_event`: set `status = EventStatus.EXPIRED`. -/
def expire_event (db : DB) (event_id : Nat) (now : Nat) : Bool × DB :=
  let events := updateWhere event_id (fun e =>
    { e with status := EventStatus.EXPIRED, updated_at := some now }) db.events
  (rowcountId event_id db.events > 0, { db with events := events })

/-- `MHTDatabase.record_error`: executes the INSERT into
`common_eventerror`, then builds the UPDATE parameter tuple, which
evaluates `EventStatus.ERROR`.  That member does not exist on the enum, so
an `AttributeError` is raised before `conn.commit()` is reached and the
`conn.close()` in the `finally` block rolls the uncommitted INSERT back:
the call returns no error-record id and the database is unchanged.  The
`some` branch below is the code path that would run if the attribute
existed. -/
def record_error (db : DB) (event_id : Nat) (error_message : String)
    (now : Nat) : Option Nat × DB :=
  let pendingErrors :=
    db.errors ++ [⟨db.nextErrorId, now, error_message, event_id⟩]
  let error_id := db.nextErrorId
  match EventStatus.attr "ERROR" with
  | none => (none, db)
  | some st =>
      let events := updateWhere event_id (fun e =>
        { e with error_count := e.error_count + 1, status := st,
                 updated_at := some now }) db.events
      (some error_id,
       { db with events := events, errors := pendingErrors,
                 nextErrorId := db.nextErrorId + 1 })

/-- `MHTDatabase.get_event`: `SELECT * WHERE id = ?` with `fetchone`. -/
def get_event (db : DB) (event_id : Nat) : Option Event :=
  db.events.find? (fun e => e.id == event_id)

/-- `MHTDatabase.get_pending_events`:
`SELECT * WHERE status = PENDING ORDER BY received_at` (no direction
filter in the source). -/
def get_pending_events (db : DB) : List Event :=
  sortByKey (fun e => (e.received_at, e.id))
    (db.events.filter (fun e => e.status == EventStatus.PENDING))

/-- `MHTDatabase.get_converted_events`:
`SELECT * WHERE status = CONVERTED ORDER BY converted_at` (no direction
filter, and the sort key is `converted_at`, not `received_at`). -/
def get_converted_events (db : DB) : List Event :=
  sortByKey (fun e => (optKey e.converted_at, e.id))
    (db.events.filter (fun e => e.status == EventStatus.CONVERTED))

end MHTDatabase

/-! Helper lemmas about the update primitives. -/

theorem updateWhere_eq_self {i : Nat} {f : Event → Event} {l : List Event}
    (h : ∀ e ∈ l, e.id ≠ i) : updateWhere i f l = l := by
  induction l with
  | nil => rfl
  | cons a t ih =>
      simp only [updateWhere, List.map_cons]
      rw [if_neg (h a (List.mem_cons_self a t))]
      have := ih (fun e he => h e (List.mem_cons_of_mem a he))
      simpa [updateWhere] using this

theorem rowcountId_eq_zero {i : Nat} {l : List Event}
    (h : ∀ e ∈ l, e.id ≠ i) : rowcountId i l = 0 := by
  simp only [rowcountId, List.length_eq_zero, List.filter_eq_nil_iff]
  intro e he
  simpa using h e he

/-- Helper: the store's own advance-style mutations on an id that matches
no row return `False` and leave every row unchanged. -/
theorem advance_missing_id_noop (db : DB) (i : Nat) (d : DocData) (r : Stored)
    (now : Nat) (h : ∀ e ∈ db.events, e.id ≠ i) :
    MHTDatabase.update_event_converted db i d now = (false, db) ∧
    MHTDatabase.update_event_sent db i r now = (false, db) ∧
    MHTDatabase.expire_event db i now = (false, db) := by
  refine ⟨?_, ?_, ?_⟩ <;>
    simp [MHTDatabase.update_event_converted, MHTDatabase.update_event_sent,
          MHTDatabase.expire_event, updateWhere_eq_self h, rowcountId_eq_zero h]

namespace MHTResultProcessor

/-- Status codes of `MHTResultProcessor` (result_processor.py lines 27-31). -/
def STATUS_OUTBOUND_READY : Int := 10

def STATUS_PROCESSING : Int := 50

def STATUS_COMPLETE : Int := 100

/-- Max retries before marking as failed. -/
def MAX_ERRORS : Nat := 4

/-- `MHTResultProcessor._get_pending_results`:
`SELECT ... WHERE direction = 'O' AND status = 10 ORDER BY received_at`. -/
def get_pending_results (db : DB) : List Event :=
  sortByKey (fun e => (e.received_at, e.id))
    (db.events.filter
      (fun e => e.direction == 'O' && e.status == STATUS_OUTBOUND_READY))

/-- `MHTResultProcessor._update_status`: one UPDATE of either the status
field alone or status together with both payload columns.  The source
guards the wide branch with `if converted_data and response_data`; the
dicts the processor passes there are non-empty literals, so Python
truthiness coincides with presence and is modelled by `isSome`. -/
def update_status (db : DB) (event_id : Nat) (status : Int)
    (converted_data : Option ResultSummary) (response_data : Option ResponseData)
    (now : Nat) : Bool × DB :=
  let events :=
    if converted_data.isSome && response_data.isSome then
      updateWhere event_id (fun e =>
        { e with status := status, converted_at := some now,
                 converted_data := converted_data.map .summaryDoc,
                 sent_at := some now,
                 response_data := response_data.map .responseDoc,
                 updated_at := some now }) db.events
    else
      updateWhere event_id (fun e =>
        { e with status := status, updated_at := some now }) db.events
  (rowcountId event_id db.events > 0, { db with events := events })

/-- `MHTResultProcessor._increment_error`: read the row's `error_count`,
add one, and either store the new count (below the cap) or store it
together with `status = -abs(current_status)` (cap reached).  Returns
whether the event was marked as failed.  No row is inserted into
`common_eventerror` by this operation. -/
def increment_error (db : DB) (event_id : Nat) (current_status : Int)
    (error_message : String) (now : Nat) : Bool × DB :=
  match db.events.find? (fun e => e.id == event_id) with
  | none => (false, db)
  | some row =>
      let new_error_count := row.error_count + 1
      if MAX_ERRORS ≤ new_error_count then
        let new_status : Int := -(Int.natAbs current_status : Int)
        (true,
         { db with events := updateWhere event_id (fun e =>
             { e with status := new_status, error_count := new_error_count,
                      updated_at := some now }) db.events })
      else
        (false,
         { db with events := updateWhere event_id (fun e =>
             { e with error_count := new_error_count,
                      updated_at := some now }) db.events })

/-- `json.loads(event['raw_data']) if event['raw_data'] else {}`. -/
def parseRaw : Option RawPayload → Except String DocData
  | none => .ok DocData.empty
  | some .malformed => .error "json.loads raised"
  | some (.parsed d) => .ok d

/-- Python `a or b` on two optional strings: `None` and the empty string
are falsy. -/
def pyOrStr (a b : Option String) : Option String :=
  if a.getD "" == "" then b else a

/-- The per-assessment summary dict built inside
`_process_assessment_result`. -/
def summarizeAssessment (a : Assessment) : AssessmentSummary :=
  { assessment_id := a.assessment_id
    assessment_name := a.assessment_name
    assessment_type := a.assessment_type
    total_score := a.total_score_value
    severity := pyOrStr a.total_score_legend a.patient_score_legend_value
    flagged_abnormal := a.flagged_abnormal
    clinical_notes := a.assessment_clinical_notes
    item_count := a.assessment_items.length }

/-- `MHTResultProcessor._process_assessment_result`: parse the raw payload
and extract the normalized summary; a parse failure propagates as the
exception the caller catches. -/
def process_assessment_result (event : Event) (now : Nat) :
    Except String ResultSummary := do
  let data ← parseRaw event.raw_data
  let patient := data.patient.getD Patient.empty
  let assessments := data.assessment.getD []
  .ok { event_id := event.id
        processed_at := now
        patient_id := patient.patient_id
        patient_name :=
          ((patient.patient_first_name.getD "") ++ " " ++
            (patient.patient_last_name.getD "")).trim
        assessments := assessments.map summarizeAssessment
        pdf_url := data.assessment_response_url }

/-- `MHTResultProcessor._process_single_result`: set the row to
PROCESSING, build the summary, and on success write COMPLETE with both
payload columns (invoking the callback, whose argument is the third
component); on any exception record the failure through
`increment_error` with `current_status = STATUS_OUTBOUND_READY`. -/
def process_single_result (db : DB) (event : Event) (now : Nat) :
    Bool × DB × Option ResultSummary :=
  let db1 := (update_status db event.id STATUS_PROCESSING none none now).2
  match process_assessment_result event now with
  | .ok result_summary =>
      let response_data : ResponseData :=
        { processed := true, processed_at := now, summary := result_summary,
          status := "success" }
      let db2 := (update_status db1 event.id STATUS_COMPLETE
        (some result_summary) (some response_data) now).2
      (true, db2, some result_summary)
  | .error msg =>
      (false, (increment_error db1 event.id STATUS_OUTBOUND_READY msg now).2,
       none)

/-- The body of the loop in `MHTResultProcessor.process_now`: process each
fetched event in order, counting successes and collecting the callback
arguments. -/
def processPending (db : DB) (now : Nat) :
    List Event → Nat × DB × List ResultSummary
  | [] => (0, db, [])
  | e :: rest =>
      match process_single_result db e now with
      | (ok, db1, s) =>
          match processPending db1 now rest with
          | (n, db2, ss) => (if ok then n + 1 else n, db2, s.toList ++ ss)

/-- `MHTResultProcessor.process_now`: fetch all pending results and process
them, returning the number processed. -/
def process_now (db : DB) (now : Nat) : Nat × DB × List ResultSummary :=
  processPending db now (get_pending_results db)

/-- The sleep structure of `MHTResultProcessor._run_loop`: one
uninterrupted `time.sleep(self.poll_interval)` per iteration, expressed in
tenths of a second. -/
def run_loop_sleep_tenths (poll_interval : Nat) : List Nat :=
  [10 * poll_interval]

end MHTResultProcessor

namespace MHTResponseSimulator

/-- Status codes of `MHTResponseSimulator` (mht_simulator.py lines 29-32).
The inline comment on the constant reads "Outbound results ready to be
processed by OutboundWorker", while the module docstring and the comment
at the INSERT say the new outbound event gets status 10. -/
def STATUS_INITIAL : Int := 0

def STATUS_OUTBOUND_READY : Int := 100

def STATUS_COMPLETE : Int := 200

/-- The nine PHQ-9 question texts used to build the mock items. -/
def phq9_questions : List String :=
  ["Little interest or pleasure in doing things",
   "Feeling down, depressed, or hopeless",
   "Trouble falling/staying asleep or sleeping too much",
   "Feeling tired or having little energy",
   "Poor appetite or overeating",
   "Feeling bad about yourself",
   "Trouble concentrating on things",
   "Moving or speaking slowly/being fidgety",
   "Thoughts of self-harm"]

/-- Severity label from the PHQ-9 total score. -/
def severityFor (total_score : Nat) : String :=
  if total_score ≤ 4 then "Minimal"
  else if total_score ≤ 9 then "Mild"
  else if total_score ≤ 14 then "Moderate"
  else if total_score ≤ 19 then "Moderately Severe"
  else "Severe"

/-- `MHTResponseSimulator._generate_mock_assessment`: build the mock MHT
response document.  The random draws (`random.randint`) are passed in as
the `phq9_scores` list and the `assessment_rand_id`; the wall clock as
`now`. -/
def generate_mock_assessment (patient_data : DocData) (phq9_scores : List Nat)
    (assessment_rand_id : Nat) (now : Nat) : DocData :=
  let patient := patient_data.patient.getD Patient.empty
  let patient_id := patient.patient_id.getD "unknown"
  let first_name := patient.patient_first_name.getD ""
  let last_name := patient.patient_last_name.getD ""
  let total_score := phq9_scores.sum
  let severity := severityFor total_score
  let assessment_items := (phq9_questions.zip phq9_scores).map
    (fun p => ({ assessment_item_score := toString p.2 ++ ".0" } : AssessmentItem))
  let mock_pdf_url := "https://mht-assessments.s3.amazonaws.com/reports/" ++
    patient_id ++ "_" ++ toString now ++ ".pdf"
  { patient := some
      { patient_id := some patient_id, patient_first_name := some first_name,
        patient_last_name := some last_name }
    assessment := some
      [{ assessment_id := some assessment_rand_id
         assessment_name := some "PHQ-9"
         assessment_type := some "Depression Screening"
         assessment_items := assessment_items
         total_score_legend := some severity
         total_score_value := some (toString total_score)
         patient_score_legend_value := some severity
         assessment_clinical_notes := some
           ("Patient " ++ first_name ++ " " ++ last_name ++
            " completed PHQ-9 screening. Total score: " ++
            toString total_score ++ " (" ++ severity ++ ").")
         flagged_abnormal := 10 ≤ total_score }]
    assessment_response_url := some mock_pdf_url }

/-- `MHTResponseSimulator._create_outbound_event`: INSERT the mock result
as a new outbound event with `status = self.STATUS_OUTBOUND_READY`,
`kind = 'assessment_result'` and `error_count = 0`, returning the new row
id. -/
def create_outbound_event (db : DB) (inbound_event_id : Nat)
    (inbound_converted_data : DocData) (phq9_scores : List Nat)
    (assessment_rand_id : Nat) (now : Nat) : Nat × DB :=
  let mock_response := generate_mock_assessment inbound_converted_data
    phq9_scores assessment_rand_id now
  let e : Event :=
    { id := db.nextEventId, received_at := now, direction := 'O',
      raw_data := some (.parsed mock_response), converted_at := none,
      converted_data := none, sent_at := none, response_data := none,
      status := STATUS_OUTBOUND_READY, kind := "assessment_result",
      updated_at := some now, error_count := 0 }
  (db.nextEventId,
   { db with events := db.events ++ [e], nextEventId := db.nextEventId + 1 })

/-- The sleep structure of `MHTResponseSimulator._run_loop`: a single
uninterrupted `time.sleep(5)` per iteration, in tenths of a second. -/
def run_loop_sleep_tenths : List Nat := [50]

end MHTResponseSimulator

namespace OutboundWorker

/-- Status codes of `OutboundWorker` (outbound_worker.py lines 34-38). -/
def STATUS_READY : Int := 100

def STATUS_PROCESSING : Int := 50

def STATUS_DONE : Int := 200

def STATUS_ERROR : Int := -100

/-- `OutboundWorker._get_ready_outbound_events`:
`SELECT * WHERE direction = 'O' AND status = 100 ORDER BY id ASC`. -/
def get_ready_outbound_events (db : DB) : List Event :=
  sortByKey (fun e => (e.id, e.id))
    (db.events.filter (fun e => e.direction == 'O' && e.status == STATUS_READY))

/-- `OutboundWorker._update_event_status`: UPDATE status and updated_at. -/
def update_event_status (db : DB) (event_id : Nat) (status : Int) (now : Nat) :
    DB :=
  { db with events := updateWhere event_id (fun e =>
      { e with status := status, updated_at := some now }) db.events }

/-- `json.loads(event['raw_data'])` in `_process_event`: unlike the result
processor there is no None guard, so a NULL payload raises as well. -/
def workerParse : Option RawPayload → Except String DocData
  | none => .error "json.loads raised on None"
  | some .malformed => .error "json.loads raised"
  | some (.parsed d) => .ok d

/-- Python f-string rendering of a possibly missing value (`None` prints
as the four-letter word). -/
def pyFmt (o : Option String) : String := o.getD "None"

/-- `OutboundWorker._process_event`: set the row to PROCESSING, parse the
payload, run the on-screen entry flow, and set DONE on success or ERROR on
a false return or an exception.  The flow (steps 1-21 of UI automation,
`_run_outbound_flow`) is abstracted as `flow`, whose `none` result models
an exception escaping to the surrounding `except` clause.  The second
component of the result records the successive status writes, in order. -/
def process_event (db : DB) (event : Event)
    (flow : String → List Assessment → Option Bool) (now : Nat) :
    DB × List Int :=
  let db1 := update_event_status db event.id STATUS_PROCESSING now
  match workerParse event.raw_data with
  | .error _ =>
      (update_event_status db1 event.id STATUS_ERROR now,
       [STATUS_PROCESSING, STATUS_ERROR])
  | .ok data =>
      let patient := data.patient.getD Patient.empty
      let patient_name := pyFmt patient.patient_last_name ++ ", " ++
        pyFmt patient.patient_first_name
      let assessments := data.assessment.getD []
      match flow patient_name assessments with
      | some true =>
          (update_event_status db1 event.id STATUS_DONE now,
           [STATUS_PROCESSING, STATUS_DONE])
      | some false =>
          (update_event_status db1 event.id STATUS_ERROR now,
           [STATUS_PROCESSING, STATUS_ERROR])
      | none =>
          (update_event_status db1 event.id STATUS_ERROR now,
           [STATUS_PROCESSING, STATUS_ERROR])

/-- The sleep structure of `OutboundWorker._run_loop`: the poll wait is
`int(poll_interval * 10)` chunks of `time.sleep(0.1)`, with the stop flag
checked before every chunk; in tenths of a second. -/
def run_loop_sleep_tenths (poll_interval : Nat) : List Nat :=
  List.replicate (10 * poll_interval) 1

end OutboundWorker

/-! Claim theorems. -/

/-- C5: every call to `MHTDatabase.record_error` reads `EventStatus.ERROR`,
a member the enum does not declare, so it raises before `conn.commit()`:
it never returns an error-record id and leaves both the event table and the
error table unchanged. -/
theorem record_error_always_raises_before_commit (db : DB) (event_id : Nat)
    (msg : String) (now : Nat) :
    MHTDatabase.record_error db event_id msg now = (none, db) := rfl

/-- C7: the advance-style mutations (`update_event_converted`,
`update_event_sent`, and the result processor's `_update_status`) called
with an id matching no row return `False`, raise nothing, and leave every
row of the store unchanged. -/
theorem advance_on_missing_id_is_noop (db : DB) (i : Nat) (d : DocData)
    (r : Stored) (st : Int) (cd : Option ResultSummary)
    (rd : Option ResponseData) (now : Nat) (h : ∀ e ∈ db.events, e.id ≠ i) :
    MHTDatabase.update_event_converted db i d now = (false, db) ∧
    MHTDatabase.update_event_sent db i r now = (false, db) ∧
    MHTResultProcessor.update_status db i st cd rd now = (false, db) := by
  refine ⟨(advance_missing_id_noop db i d r now h).1,
          (advance_missing_id_noop db i d r now h).2.1, ?_⟩
  by_cases hc : cd.isSome && rd.isSome <;>
    simp [MHTResultProcessor.update_status, hc, updateWhere_eq_self h,
          rowcountId_eq_zero h]

/-- A one-event store used to witness the missing-id no-op at the concrete
id 2. -/
def oneEventDB : DB :=
  { events := [{ id := 1, received_at := 0, direction := 'I',
                 raw_data := some (.parsed DocData.empty), converted_at := none,
                 converted_data := none, sent_at := none, response_data := none,
                 status := 0, kind := "patient_extraction", updated_at := some 0,
                 error_count := 0 }],
    errors := [], nextEventId := 2, nextErrorId := 1 }

/-- Witness for C7 at the concrete store `oneEventDB` and missing id 2. -/
theorem advance_on_missing_id_is_noop_witness :
    MHTDatabase.update_event_converted oneEventDB 2 DocData.empty 7 =
      (false, oneEventDB) ∧
    MHTDatabase.update_event_sent oneEventDB 2 (.mhtPayload DocData.empty) 7 =
      (false, oneEventDB) ∧
    MHTResultProcessor.update_status oneEventDB 2 50 none none 7 =
      (false, oneEventDB) :=
  advance_on_missing_id_is_noop oneEventDB 2 DocData.empty
    (.mhtPayload DocData.empty) 50 none none 7 (by decide)

/-- The converted patient document used in the concrete scenarios below. -/
def demoPatientDoc : DocData :=
  { patient := some { patient_id := some "123",
                      patient_first_name := some "Jane",
                      patient_last_name := some "Doe" },
    assessment := none, assessment_response_url := none }

/-- C1: evaluation of the code at a concrete answered inbound event.  The
simulator's `_create_outbound_event` inserts the new outbound event with
`self.STATUS_OUTBOUND_READY = 100`, not the RECEIVED status 10 claimed by
the spec and by the simulator's own docstring and inline comment, so the
result processor's status-10 poll never returns it; instead the delivery
worker's status-100 poll picks it up directly. -/
theorem simulator_outbound_event_bypasses_result_processor :
    (MHTDatabase.get_event
      (MHTResponseSimulator.create_outbound_event
        (MHTDatabase.update_event_converted
          (MHTDatabase.create_event initDB (.parsed demoPatientDoc)
            "patient_extraction" 0).2 1 demoPatientDoc 10).2
        1 demoPatientDoc [1, 1, 1, 0, 2, 1, 0, 1, 1] 1234567 40).2 2).map
      (·.status) = some 100 ∧
    MHTResultProcessor.get_pending_results
      (MHTResponseSimulator.create_outbound_event
        (MHTDatabase.update_event_converted
          (MHTDatabase.create_event initDB (.parsed demoPatientDoc)
            "patient_extraction" 0).2 1 demoPatientDoc 10).2
        1 demoPatientDoc [1, 1, 1, 0, 2, 1, 0, 1, 1] 1234567 40).2 = [] ∧
    (OutboundWorker.get_ready_outbound_events
      (MHTResponseSimulator.create_outbound_event
        (MHTDatabase.update_event_converted
          (MHTDatabase.create_event initDB (.parsed demoPatientDoc)
            "patient_extraction" 0).2 1 demoPatientDoc 10).2
        1 demoPatientDoc [1, 1, 1, 0, 2, 1, 0, 1, 1] 1234567 40).2).map
      (·.id) = [2] ∧
    MHTResponseSimulator.STATUS_OUTBOUND_READY ≠
      MHTResultProcessor.STATUS_OUTBOUND_READY := by
  refine ⟨rfl, rfl, rfl, by decide⟩

/-- A store holding one outbound result at status 10 whose payload
`json.loads` rejects: the C2 failing input. -/
def stuckDB : DB :=
  { events := [{ id := 1, received_at := 0, direction := 'O',
                 raw_data := some .malformed, converted_at := none,
                 converted_data := none, sent_at := none, response_data := none,
                 status := 10, kind := "assessment_result", updated_at := some 0,
                 error_count := 0 }],
    errors := [], nextEventId := 2, nextErrorId := 1 }

/-- C2: evaluation of the code at the failing input `stuckDB`.  The first
poll moves the event to PROCESSING (50) and records one error; because
`_increment_error` leaves the event at 50 rather than back at 10, the
status-10 poll never selects it again: `error_count` stays at 1 forever,
the retry cap of 4 is unreachable, and no escalation to a negative status
ever happens. -/
theorem malformed_result_stuck_at_processing :
    (MHTResultProcessor.process_now stuckDB 1).1 = 0 ∧
    (MHTDatabase.get_event (MHTResultProcessor.process_now stuckDB 1).2.1 1).map
      (fun e => (e.status, e.error_count)) = some ((50 : Int), 1) ∧
    MHTResultProcessor.get_pending_results
      (MHTResultProcessor.process_now stuckDB 1).2.1 = [] ∧
    MHTResultProcessor.process_now (MHTResultProcessor.process_now stuckDB 1).2.1 2 =
      (0, (MHTResultProcessor.process_now stuckDB 1).2.1, []) ∧
    (MHTDatabase.get_event
      (MHTResultProcessor.process_now
        (MHTResultProcessor.process_now stuckDB 1).2.1 2).2.1 1).map
      (fun e => (e.status, e.error_count)) = some ((50 : Int), 1) := by
  refine ⟨rfl, rfl, rfl, rfl, rfl⟩

/-- C10 counterexample: the simulator's loop suspends in a single
uninterrupted five-second `time.sleep(5)`, and the result processor's loop
in a single `time.sleep(poll_interval)` (default 10 s); neither is split
into sub-second chunks, so a stop request during the sleep is not observed
within a sub-second sub-interval. -/
theorem simulator_and_processor_sleep_full_interval :
    ¬ (∀ c ∈ MHTResponseSimulator.run_loop_sleep_tenths, c < 10) ∧
    ¬ (∀ c ∈ MHTResultProcessor.run_loop_sleep_tenths 10, c < 10) := by decide

/-- C10 amended: only the outbound delivery worker's loop sleeps in 0.1 s
chunks with the stop flag checked before each chunk; the simulator always
has a 5 s uninterrupted sleep, and the result processor's single sleep
spans its whole poll interval. -/
theorem stop_latency_granularity :
    (∀ p : Nat, ∀ c ∈ OutboundWorker.run_loop_sleep_tenths p, c < 10) ∧
    (∃ c ∈ MHTResponseSimulator.run_loop_sleep_tenths, 10 ≤ c) ∧
    (∀ p : Nat, 1 ≤ p → ∃ c ∈ MHTResultProcessor.run_loop_sleep_tenths p, 10 ≤ c) := by
  refine ⟨?_, ⟨50, by decide, by decide⟩, ?_⟩
  · intro p c hc
    have h := List.eq_of_mem_replicate hc
    omega
  · intro p hp
    refine ⟨10 * p, by simp [MHTResultProcessor.run_loop_sleep_tenths], by omega⟩

/-- Witness for C10 amended at the concrete poll intervals 5 (worker) and
10 (processor default). -/
theorem stop_latency_granularity_witness :
    (1 : Nat) < 10 ∧
    (∃ c ∈ MHTResponseSimulator.run_loop_sleep_tenths, 10 ≤ c) ∧
    (∃ c ∈ MHTResultProcessor.run_loop_sleep_tenths 10, 10 ≤ c) :=
  ⟨stop_latency_granularity.1 5 1 (by decide), stop_latency_granularity.2.1,
   stop_latency_granularity.2.2 10 (by decide)⟩

/-! Lemmas tracking one row through `UPDATE ... WHERE id = i`. -/

theorem find?_updateWhere (i : Nat) (f : Event → Event)
    (hf : ∀ e, (f e).id = e.id) (l : List Event) :
    (updateWhere i f l).find? (fun e => e.id == i) =
      (l.find? (fun e => e.id == i)).map f := by
  induction l with
  | nil => rfl
  | cons a t ih =>
      simp only [updateWhere, List.map_cons]
      by_cases ha : a.id = i
      · rw [if_pos ha]
        rw [List.find?_cons_of_pos _ (by simp [hf a, ha]),
            List.find?_cons_of_pos _ (by simp [ha])]
        simp
      · rw [if_neg ha]
        rw [List.find?_cons_of_neg _ (by simp [ha]),
            List.find?_cons_of_neg _ (by simp [ha])]
        exact ih

theorem get_event_updateWhere (db : DB) (i : Nat) (f : Event → Event)
    (hf : ∀ e, (f e).id = e.id) :
    MHTDatabase.get_event { db with events := updateWhere i f db.events } i =
      (MHTDatabase.get_event db i).map f :=
  find?_updateWhere i f hf db.events

/-- `_increment_error` below the retry cap: count goes up, status is left
untouched, and the call reports no escalation. -/
theorem increment_error_below (db : DB) (i : Nat) (e : Event) (S : Int)
    (msg : String) (now : Nat) (he : MHTDatabase.get_event db i = some e)
    (hcap : e.error_count + 1 < MHTResultProcessor.MAX_ERRORS) :
    MHTResultProcessor.increment_error db i S msg now =
      (false, { db with events := updateWhere i (fun x =>
        { x with error_count := e.error_count + 1,
                 updated_at := some now }) db.events }) := by
  unfold MHTResultProcessor.increment_error
  rw [show db.events.find? (fun x => x.id == i) = some e from he]
  simp only
  rw [if_neg (by omega)]

/-- `_increment_error` at the retry cap: count goes up, status becomes
`-abs(current_status)`, and the call reports escalation. -/
theorem increment_error_cap (db : DB) (i : Nat) (e : Event) (S : Int)
    (msg : String) (now : Nat) (he : MHTDatabase.get_event db i = some e)
    (hcap : MHTResultProcessor.MAX_ERRORS ≤ e.error_count + 1) :
    MHTResultProcessor.increment_error db i S msg now =
      (true, { db with events := updateWhere i (fun x =>
        { x with status := -(Int.natAbs S : Int),
                 error_count := e.error_count + 1,
                 updated_at := some now }) db.events }) := by
  unfold MHTResultProcessor.increment_error
  rw [show db.events.find? (fun x => x.id == i) = some e from he]
  simp only
  rw [if_pos hcap]

/-- Repeated application of `_increment_error` to the same event id with
the same claimed current status, collecting the escalation flags. -/
def iterIncrementError (i : Nat) (S : Int) (now : Nat) :
    List String → DB → List Bool × DB
  | [], db => ([], db)
  | m :: ms, db =>
      let r := MHTResultProcessor.increment_error db i S m now
      let rest := iterIncrementError i S now ms r.2
      (r.1 :: rest.1, rest.2)

/-- C3 amended: on an event at status S with error_count 0, three
consecutive record-failure calls leave the status at S with error_count 3
and report no escalation; the fourth call reports escalation and leaves
status `-abs(S)` (equal to `-S` for the non-negative statuses the
processor passes) with error_count 4. -/
theorem record_failure_cap_behavior (db : DB) (i : Nat) (e : Event) (S : Int)
    (m1 m2 m3 m4 : String) (now : Nat)
    (he : MHTDatabase.get_event db i = some e)
    (hc : e.error_count = 0) (hs : e.status = S) :
    (iterIncrementError i S now [m1, m2, m3] db).1 = [false, false, false] ∧
    (MHTDatabase.get_event (iterIncrementError i S now [m1, m2, m3] db).2 i).map
      (fun x => (x.status, x.error_count)) = some (S, 3) ∧
    (iterIncrementError i S now [m1, m2, m3, m4] db).1 =
      [false, false, false, true] ∧
    (MHTDatabase.get_event (iterIncrementError i S now [m1, m2, m3, m4] db).2 i).map
      (fun x => (x.status, x.error_count)) =
      some (-(Int.natAbs S : Int), 4) := by
  have hmax : MHTResultProcessor.MAX_ERRORS = 4 := rfl
  have s1 := increment_error_below db i e S m1 now he (by rw [hmax]; omega)
  have g1 := get_event_updateWhere db i
    (fun x => { x with error_count := e.error_count + 1,
                       updated_at := some now }) (fun _ => rfl)
  rw [he] at g1
  set e1 : Event :=
    { e with error_count := e.error_count + 1, updated_at := some now } with he1
  set D1 : DB := { db with events := updateWhere i (fun x =>
    { x with error_count := e.error_count + 1,
             updated_at := some now }) db.events } with hd1
  have g1' : MHTDatabase.get_event D1 i = some e1 := g1
  have hc1 : e1.error_count = 1 := by rw [he1]; simp [hc]
  have s2 := increment_error_below D1 i e1 S m2 now g1' (by rw [hmax, hc1]; decide)
  have g2 := get_event_updateWhere D1 i
    (fun x => { x with error_count := e1.error_count + 1,
                       updated_at := some now }) (fun _ => rfl)
  rw [g1'] at g2
  set e2 : Event :=
    { e1 with error_count := e1.error_count + 1, updated_at := some now } with he2
  set D2 : DB := { D1 with events := updateWhere i (fun x =>
    { x with error_count := e1.error_count + 1,
             updated_at := some now }) D1.events } with hd2
  have g2' : MHTDatabase.get_event D2 i = some e2 := g2
  have hc2 : e2.error_count = 2 := by rw [he2]; simp [hc]
  have s3 := increment_error_below D2 i e2 S m3 now g2' (by rw [hmax, hc2]; decide)
  have g3 := get_event_updateWhere D2 i
    (fun x => { x with error_count := e2.error_count + 1,
                       updated_at := some now }) (fun _ => rfl)
  rw [g2'] at g3
  set e3 : Event :=
    { e2 with error_count := e2.error_count + 1, updated_at := some now } with he3
  set D3 : DB := { D2 with events := updateWhere i (fun x =>
    { x with error_count := e2.error_count + 1,
             updated_at := some now }) D2.events } with hd3
  have g3' : MHTDatabase.get_event D3 i = some e3 := g3
  have hc3 : e3.error_count = 3 := by rw [he3]; simp [hc]
  have s4 := increment_error_cap D3 i e3 S m4 now g3' (by rw [hmax, hc3])
  have g4 := get_event_updateWhere D3 i
    (fun x => { x with status := -(Int.natAbs S : Int),
                       error_count := e3.error_count + 1,
                       updated_at := some now }) (fun _ => rfl)
  rw [g3'] at g4
  set e4 : Event :=
    { e3 with status := -(Int.natAbs S : Int),
              error_count := e3.error_count + 1, updated_at := some now } with he4
  set D4 : DB := { D3 with events := updateWhere i (fun x =>
    { x with status := -(Int.natAbs S : Int),
             error_count := e3.error_count + 1,
             updated_at := some now }) D3.events } with hd4
  have g4' : MHTDatabase.get_event D4 i = some e4 := g4
  have hs3 : e3.status = S := by rw [he3, he2, he1]; simpa using hs
  have hc4 : e4.error_count = 4 := by rw [he4]; simp [hc]
  have hs4 : e4.status = -(Int.natAbs S : Int) := by rw [he4]
  refine ⟨?_, ?_, ?_, ?_⟩
  · simp only [iterIncrementError, s1, s2, s3]
  · simp only [iterIncrementError, s1, s2, s3]
    rw [g3']
    show some (e3.status, e3.error_count) = some (S, 3)
    rw [hs3, hc3]
  · simp only [iterIncrementError, s1, s2, s3, s4]
  · simp only [iterIncrementError, s1, s2, s3, s4]
    rw [g4']
    show some (e4.status, e4.error_count) = some (-(Int.natAbs S : Int), 4)
    rw [hs4, hc4]

/-- A store holding one event at the negative status -10 with error_count
0: the C3 counterexample input. -/
def negStatusDB : DB :=
  { events := [{ id := 1, received_at := 0, direction := 'O',
                 raw_data := some .malformed, converted_at := none,
                 converted_data := none, sent_at := none, response_data := none,
                 status := -10, kind := "assessment_result", updated_at := some 0,
                 error_count := 0 }],
    errors := [], nextEventId := 2, nextErrorId := 1 }

/-- C3 counterexample: four record-failure calls on an event at status
S = -10 with error_count 0 end at status -abs(-10) = -10 with error_count
4, not at -S = 10 as the claim states for every S. -/
theorem record_failure_negative_status_counterexample :
    (MHTDatabase.get_event
      (iterIncrementError 1 (-10) 3 ["a", "b", "c", "d"] negStatusDB).2 1).map
      (fun x => (x.status, x.error_count)) = some ((-10 : Int), 4) ∧
    ((-10 : Int) ≠ -(-10 : Int)) := by decide

/-- Witness for C3 amended at the concrete store `stuckDB` (one event at
status 10 with error_count 0). -/
theorem record_failure_cap_behavior_witness :
    (iterIncrementError 1 10 7 ["x", "y", "z"] stuckDB).1 =
      [false, false, false] ∧
    (MHTDatabase.get_event
      (iterIncrementError 1 10 7 ["x", "y", "z"] stuckDB).2 1).map
      (fun x => (x.status, x.error_count)) = some ((10 : Int), 3) ∧
    (iterIncrementError 1 10 7 ["x", "y", "z", "w"] stuckDB).1 =
      [false, false, false, true] ∧
    (MHTDatabase.get_event
      (iterIncrementError 1 10 7 ["x", "y", "z", "w"] stuckDB).2 1).map
      (fun x => (x.status, x.error_count)) =
      some (-(Int.natAbs 10 : Int), 4) :=
  record_failure_cap_behavior stuckDB 1
    { id := 1, received_at := 0, direction := 'O',
      raw_data := some .malformed, converted_at := none, converted_data := none,
      sent_at := none, response_data := none, status := 10,
      kind := "assessment_result", updated_at := some 0, error_count := 0 }
    10 "x" "y" "z" "w" 7 rfl rfl rfl

/-! Ordering and membership facts about the ORDER BY model. -/

theorem keyLeB_total {a b : Nat × Nat} (h : ¬ keyLeB a b = true) :
    keyLeB b a = true := by
  simp only [keyLeB, decide_eq_true_eq] at *
  omega

theorem keyLeB_trans {a b c : Nat × Nat} (h1 : keyLeB a b = true)
    (h2 : keyLeB b c = true) : keyLeB a c = true := by
  simp only [keyLeB, decide_eq_true_eq] at *
  omega

theorem mem_insertByKey {k : Event → Nat × Nat} {e x : Event} :
    ∀ {l : List Event}, x ∈ insertByKey k e l ↔ x = e ∨ x ∈ l := by
  intro l
  induction l with
  | nil => simp [insertByKey]
  | cons f rest ih =>
      simp only [insertByKey]
      by_cases hc : keyLeB (k f) (k e) = true
      · rw [if_pos hc]
        simp only [List.mem_cons, ih]
        tauto
      · rw [if_neg hc]
        simp only [List.mem_cons]

theorem pairwise_insertByKey {k : Event → Nat × Nat} {e : Event} :
    ∀ {l : List Event},
      l.Pairwise (fun a b => keyLeB (k a) (k b) = true) →
      (insertByKey k e l).Pairwise (fun a b => keyLeB (k a) (k b) = true) := by
  intro l
  induction l with
  | nil => intro _; simp [insertByKey]
  | cons f rest ih =>
      intro h
      rw [List.pairwise_cons] at h
      obtain ⟨hf, hrest⟩ := h
      simp only [insertByKey]
      by_cases hc : keyLeB (k f) (k e) = true
      · rw [if_pos hc, List.pairwise_cons]
        refine ⟨?_, ih hrest⟩
        intro x hx
        rcases mem_insertByKey.mp hx with rfl | hx'
        · exact hc
        · exact hf x hx'
      · rw [if_neg hc, List.pairwise_cons]
        refine ⟨?_, List.pairwise_cons.mpr ⟨hf, hrest⟩⟩
        intro x hx
        rcases List.mem_cons.mp hx with rfl | hx'
        · exact keyLeB_total hc
        · exact keyLeB_trans (keyLeB_total hc) (hf x hx')

theorem pairwise_sortByKey (k : Event → Nat × Nat) : ∀ l : List Event,
    (sortByKey k l).Pairwise (fun a b => keyLeB (k a) (k b) = true)
  | [] => List.Pairwise.nil
  | e :: rest => by
      have h := pairwise_sortByKey k rest
      simp only [sortByKey, List.foldr_cons] at *
      exact pairwise_insertByKey h

theorem mem_sortByKey {k : Event → Nat × Nat} {x : Event} :
    ∀ {l : List Event}, x ∈ sortByKey k l ↔ x ∈ l := by
  intro l
  induction l with
  | nil => simp [sortByKey]
  | cons e rest ih =>
      simp only [sortByKey, List.foldr_cons] at *
      rw [mem_insertByKey, ih, List.mem_cons]

/-- C8: for each event the delivery worker processes, the status writes
are PROCESSING first, then DONE exactly when the payload parses and the
actuation flow returns true, and ERROR when it returns false or raises;
and every event the ready poll selects is at STATUS_READY (100), so an
event left at STATUS_ERROR (-100) is never selected again — no automatic
retry happens at this layer. -/
theorem delivery_worker_status_writes (db : DB) (event : Event)
    (r : Option Bool) (now : Nat) :
    ((OutboundWorker.process_event db event (fun _ _ => r) now).2 =
      match OutboundWorker.workerParse event.raw_data, r with
      | .ok _, some true =>
          [OutboundWorker.STATUS_PROCESSING, OutboundWorker.STATUS_DONE]
      | _, _ =>
          [OutboundWorker.STATUS_PROCESSING, OutboundWorker.STATUS_ERROR]) ∧
    (∀ db2 : DB, ∀ x ∈ OutboundWorker.get_ready_outbound_events db2,
      x.status = OutboundWorker.STATUS_READY ∧
      x.status ≠ OutboundWorker.STATUS_ERROR) := by
  constructor
  · rcases hr : event.raw_data with _ | p
    · rcases r with _ | b
      · simp [OutboundWorker.process_event, OutboundWorker.workerParse, hr]
      · cases b <;>
          simp [OutboundWorker.process_event, OutboundWorker.workerParse, hr]
    · rcases p with _ | d
      · rcases r with _ | b
        · simp [OutboundWorker.process_event, OutboundWorker.workerParse, hr]
        · cases b <;>
            simp [OutboundWorker.process_event, OutboundWorker.workerParse, hr]
      · rcases r with _ | b
        · simp [OutboundWorker.process_event, OutboundWorker.workerParse, hr]
        · cases b <;>
            simp [OutboundWorker.process_event, OutboundWorker.workerParse, hr]
  · intro db2 x hx
    have hx' := mem_sortByKey.mp hx
    obtain ⟨-, hpred⟩ := List.mem_filter.mp hx'
    simp only [Bool.and_eq_true, beq_iff_eq] at hpred
    exact ⟨hpred.2, by rw [hpred.2]; decide⟩

/-- A committed outbound event ready for delivery, and a store holding
only it; used to witness C8 at a concrete input. -/
def readyEv : Event :=
  { id := 1, received_at := 0, direction := 'O',
    raw_data := some (.parsed demoPatientDoc), converted_at := none,
    converted_data := none, sent_at := none, response_data := none,
    status := 100, kind := "assessment_result", updated_at := some 0,
    error_count := 0 }

def oneReadyDB : DB :=
  { events := [readyEv], errors := [], nextEventId := 2, nextErrorId := 1 }

/-- Witness for C8 at the concrete store `oneReadyDB` with a flow that
returns true. -/
theorem delivery_worker_status_writes_witness :
    ((OutboundWorker.process_event oneReadyDB readyEv (fun _ _ => some true) 9).2 =
      match OutboundWorker.workerParse readyEv.raw_data,
            (some true : Option Bool) with
      | .ok _, some true =>
          [OutboundWorker.STATUS_PROCESSING, OutboundWorker.STATUS_DONE]
      | _, _ =>
          [OutboundWorker.STATUS_PROCESSING, OutboundWorker.STATUS_ERROR]) ∧
    (readyEv.status = OutboundWorker.STATUS_READY ∧
     readyEv.status ≠ OutboundWorker.STATUS_ERROR) :=
  ⟨(delivery_worker_status_writes oneReadyDB readyEv (some true) 9).1,
   (delivery_worker_status_writes oneReadyDB readyEv (some true) 9).2 oneReadyDB
     readyEv (by decide)⟩

/-- Two committed outbound events whose id order is the reverse of their
received_at order: the C6 counterexample input. -/
def outOfOrderDB : DB :=
  { events :=
      [{ id := 1, received_at := 5, direction := 'O',
         raw_data := some (.parsed demoPatientDoc), converted_at := none,
         converted_data := none, sent_at := none, response_data := none,
         status := 100, kind := "assessment_result", updated_at := some 5,
         error_count := 0 },
       { id := 2, received_at := 3, direction := 'O',
         raw_data := some (.parsed demoPatientDoc), converted_at := none,
         converted_data := none, sent_at := none, response_data := none,
         status := 100, kind := "assessment_result", updated_at := some 3,
         error_count := 0 }],
    errors := [], nextEventId := 3, nextErrorId := 1 }

/-- C6 counterexample: the delivery worker's ready poll orders by id only,
so on `outOfOrderDB` it returns received_at values [5, 3] — not ascending
by receipt time as the claim states for every pending-style query. -/
theorem ready_poll_not_by_received_at :
    (OutboundWorker.get_ready_outbound_events outOfOrderDB).map
      (fun e => (e.id, e.received_at)) = [(1, 5), (2, 3)] ∧
    ¬ (OutboundWorker.get_ready_outbound_events outOfOrderDB).Pairwise
        (fun a b => a.received_at ≤ b.received_at) := by decide

/-- C6 amended: the processor's pending poll and the store's pending query
order by received_at ascending (ties by id, per the rowid scan);
`_get_ready_outbound_events` orders by id ascending regardless of
received_at; `get_converted_events` orders by converted_at (NULL first,
ties by id), not received_at. -/
theorem pending_query_ordering (db : DB) :
    (MHTResultProcessor.get_pending_results db).Pairwise
      (fun a b => a.received_at < b.received_at ∨
        (a.received_at = b.received_at ∧ a.id ≤ b.id)) ∧
    (MHTDatabase.get_pending_events db).Pairwise
      (fun a b => a.received_at < b.received_at ∨
        (a.received_at = b.received_at ∧ a.id ≤ b.id)) ∧
    (OutboundWorker.get_ready_outbound_events db).Pairwise
      (fun a b => a.id ≤ b.id) ∧
    (MHTDatabase.get_converted_events db).Pairwise
      (fun a b => optKey a.converted_at < optKey b.converted_at ∨
        (optKey a.converted_at = optKey b.converted_at ∧ a.id ≤ b.id)) := by
  refine ⟨?_, ?_, ?_, ?_⟩
  · exact (pairwise_sortByKey (fun e => (e.received_at, e.id)) _).imp
      (fun hab => by simpa [keyLeB, decide_eq_true_eq] using hab)
  · exact (pairwise_sortByKey (fun e => (e.received_at, e.id)) _).imp
      (fun hab => by simpa [keyLeB, decide_eq_true_eq] using hab)
  · exact (pairwise_sortByKey (fun e => (e.id, e.id)) _).imp
      (fun hab => by
        have h := hab
        simp only [keyLeB, decide_eq_true_eq] at h
        omega)
  · exact (pairwise_sortByKey (fun e => (optKey e.converted_at, e.id)) _).imp
      (fun hab => by simpa [keyLeB, decide_eq_true_eq] using hab)

/-! Machinery for C9: after one full drain no outbound row is left at the
poll status 10. -/

/-- A row the result processor's status-10 poll selects. -/
def PendingRow (x : Event) : Prop := x.direction = 'O' ∧ x.status = 10

/-- Tracking a pending row backwards through an UPDATE that sets every
matched row's status to something other than 10. -/
theorem pending_updateWhere {i : Nat} {f : Event → Event} {l : List Event}
    (x : Event) (hx : x ∈ updateWhere i f l) (hb : PendingRow x)
    (hstat : ∀ e, (f e).status ≠ 10) :
    ∃ y ∈ l, PendingRow y ∧ y.id = x.id ∧ x.id ≠ i := by
  obtain ⟨y, hy, hxy⟩ := List.mem_map.mp hx
  by_cases hyi : y.id = i
  · exfalso
    rw [if_pos hyi] at hxy
    exact hstat y (hxy ▸ hb.2)
  · rw [if_neg hyi] at hxy
    exact ⟨y, hy, hxy ▸ hb, by rw [← hxy], by rw [← hxy]; exact hyi⟩

/-- `_update_status` with a target status other than 10 leaves no new
pending row. -/
theorem update_status_pending (db : DB) (i : Nat) (st : Int)
    (cd : Option ResultSummary) (rd : Option ResponseData) (now : Nat)
    (hst : st ≠ 10) :
    ∀ x ∈ (MHTResultProcessor.update_status db i st cd rd now).2.events,
      PendingRow x → ∃ y ∈ db.events, PendingRow y ∧ y.id = x.id ∧ x.id ≠ i := by
  intro x hx hb
  simp only [MHTResultProcessor.update_status] at hx
  by_cases hc : cd.isSome && rd.isSome
  · rw [if_pos hc] at hx
    exact pending_updateWhere x hx hb (fun _ => hst)
  · rw [if_neg hc] at hx
    exact pending_updateWhere x hx hb (fun _ => hst)

/-- `_increment_error` never writes status 10 (below the cap it leaves the
status untouched; at the cap it writes `-abs`), so every pending row after
it was already pending. -/
theorem increment_error_pending (db : DB) (i : Nat) (cs : Int) (msg : String)
    (now : Nat) :
    ∀ x ∈ (MHTResultProcessor.increment_error db i cs msg now).2.events,
      PendingRow x → ∃ y ∈ db.events, PendingRow y ∧ y.id = x.id := by
  intro x hx hb
  unfold MHTResultProcessor.increment_error at hx
  cases hf : db.events.find? (fun e => e.id == i) with
  | none =>
      rw [hf] at hx
      exact ⟨x, hx, hb, rfl⟩
  | some row =>
      rw [hf] at hx
      simp only at hx
      by_cases hcap : MHTResultProcessor.MAX_ERRORS ≤ row.error_count + 1
      · rw [if_pos hcap] at hx
        obtain ⟨y, hy, hby, hyid, -⟩ := pending_updateWhere x hx hb
          (fun e => by
            intro hcontra
            have h0 : (0 : Int) ≤ (Int.natAbs cs : Int) := Int.natCast_nonneg _
            have : -(Int.natAbs cs : Int) = 10 := hcontra
            omega)
        exact ⟨y, hy, hby, hyid⟩
      · rw [if_neg hcap] at hx
        obtain ⟨y, hy, hxy⟩ := List.mem_map.mp hx
        by_cases hyi : y.id = i
        · rw [if_pos hyi] at hxy
          refine ⟨y, hy, ?_, by rw [← hxy]⟩
          rcases hb with ⟨hd, hs⟩
          rw [← hxy] at hd hs
          exact ⟨hd, hs⟩
        · rw [if_neg hyi] at hxy
          exact ⟨y, hy, hxy ▸ hb, by rw [← hxy]⟩

/-- After `_process_single_result` on event `ev`, every pending row was
pending beforehand and does not carry `ev`'s id: a processed event never
returns to the poll status within the same drain. -/
theorem process_single_pending (db : DB) (ev : Event) (now : Nat) :
    ∀ x ∈ (MHTResultProcessor.process_single_result db ev now).2.1.events,
      PendingRow x →
      ∃ y ∈ db.events, PendingRow y ∧ y.id = x.id ∧ x.id ≠ ev.id := by
  intro x hx hb
  unfold MHTResultProcessor.process_single_result at hx
  cases hp : MHTResultProcessor.process_assessment_result ev now with
  | ok s =>
      rw [hp] at hx
      simp only at hx
      obtain ⟨y1, hy1, hb1, hid1, hne1⟩ := update_status_pending _ ev.id
        MHTResultProcessor.STATUS_COMPLETE _ _ now (by decide) x hx hb
      obtain ⟨y, hy, hby, hid2, -⟩ := update_status_pending db ev.id
        MHTResultProcessor.STATUS_PROCESSING none none now (by decide) y1 hy1 hb1
      exact ⟨y, hy, hby, by rw [hid2, hid1], hne1⟩
  | error msg =>
      rw [hp] at hx
      simp only at hx
      obtain ⟨y1, hy1, hb1, hid1⟩ := increment_error_pending _ ev.id
        MHTResultProcessor.STATUS_OUTBOUND_READY msg now x hx hb
      obtain ⟨y, hy, hby, hid2, hne2⟩ := update_status_pending db ev.id
        MHTResultProcessor.STATUS_PROCESSING none none now (by decide) y1 hy1 hb1
      refine ⟨y, hy, hby, by rw [hid2, hid1], ?_⟩
      rw [← hid1]
      exact hne2

/-- Draining a list of events whose ids cover every pending row leaves no
pending row at all. -/
theorem processPending_no_pending (now : Nat) : ∀ (evs : List Event) (db : DB),
    (∀ x ∈ db.events, PendingRow x → x.id ∈ evs.map (·.id)) →
    ∀ x ∈ (MHTResultProcessor.processPending db now evs).2.1.events,
      ¬ PendingRow x := by
  intro evs
  induction evs with
  | nil =>
      intro db h x hx hb
      have := h x hx hb
      simp at this
  | cons e rest ih =>
      intro db h x hx hb
      have hx' : x ∈ (MHTResultProcessor.processPending
          (MHTResultProcessor.process_single_result db e now).2.1 now
          rest).2.1.events := by
        simpa only [MHTResultProcessor.processPending] using hx
      refine ih (MHTResultProcessor.process_single_result db e now).2.1 ?_ x hx' hb
      intro z hz hbz
      obtain ⟨y, hy, hby, hyid, hne⟩ := process_single_pending db e now z hz hbz
      have hmem := h y hy hby
      simp only [List.map_cons, List.mem_cons] at hmem
      rcases hmem with h1 | h2
  -- y.id = e.id contradicts z.id ≠ e.id via y.id = z.id
      · rw [hyid] at h1
        exact absurd h1 hne
      · rw [hyid] at h2
        exact h2

/-- Every pending row's id shows up in the ids the poll fetched. -/
theorem pending_mem_get_pending (db : DB) (x : Event) (hx : x ∈ db.events)
    (hb : PendingRow x) :
    x.id ∈ (MHTResultProcessor.get_pending_results db).map (·.id) := by
  have hmem : x ∈ MHTResultProcessor.get_pending_results db := by
    unfold MHTResultProcessor.get_pending_results
    rw [mem_sortByKey]
    refine List.mem_filter.mpr ⟨hx, ?_⟩
    simp only [Bool.and_eq_true, beq_iff_eq]
    exact ⟨hb.1, hb.2⟩
  exact List.mem_map.mpr ⟨x, hmem, rfl⟩

/-- C9: a second `process_now` immediately after a first one, with no new
RECEIVED outbound event in between, fetches nothing, returns 0, leaves the
store (events and error records alike) unchanged, and produces no summary
for the callback. -/
theorem process_now_idempotent (db : DB) (now1 now2 : Nat) :
    MHTResultProcessor.process_now
      (MHTResultProcessor.process_now db now1).2.1 now2 =
      (0, (MHTResultProcessor.process_now db now1).2.1, []) ∧
    MHTResultProcessor.get_pending_results
      (MHTResultProcessor.process_now db now1).2.1 = [] := by
  have hnone : ∀ x ∈ (MHTResultProcessor.process_now db now1).2.1.events,
      ¬ PendingRow x := by
    unfold MHTResultProcessor.process_now
    exact processPending_no_pending now1
      (MHTResultProcessor.get_pending_results db) db
      (fun x hx hb => pending_mem_get_pending db x hx hb)
  have hempty : MHTResultProcessor.get_pending_results
      (MHTResultProcessor.process_now db now1).2.1 = [] := by
    unfold MHTResultProcessor.get_pending_results
    have hfil : (MHTResultProcessor.process_now db now1).2.1.events.filter
        (fun e => e.direction == 'O' &&
          e.status == MHTResultProcessor.STATUS_OUTBOUND_READY) = [] := by
      rw [List.filter_eq_nil_iff]
      intro a ha hpa
      simp only [Bool.and_eq_true, beq_iff_eq] at hpa
      exact hnone a ha ⟨hpa.1, hpa.2⟩
    rw [hfil]
    rfl
  refine ⟨?_, hempty⟩
  show MHTResultProcessor.processPending _ now2
    (MHTResultProcessor.get_pending_results
      (MHTResultProcessor.process_now db now1).2.1) = _
  rw [hempty]
  rfl

/-! Machinery for C4: no embedded operation ever commits a row into the
error table. -/

theorem increment_error_errors (db : DB) (i : Nat) (cs : Int) (msg : String)
    (now : Nat) :
    (MHTResultProcessor.increment_error db i cs msg now).2.errors = db.errors := by
  unfold MHTResultProcessor.increment_error
  cases db.events.find? (fun e => e.id == i) with
  | none => rfl
  | some row =>
      simp only
      split <;> rfl

theorem process_single_errors (db : DB) (ev : Event) (now : Nat) :
    (MHTResultProcessor.process_single_result db ev now).2.1.errors =
      db.errors := by
  unfold MHTResultProcessor.process_single_result
  cases MHTResultProcessor.process_assessment_result ev now with
  | ok s => rfl
  | error m =>
      rw [increment_error_errors]
      rfl

theorem processPending_errors (now : Nat) : ∀ (evs : List Event) (db : DB),
    (MHTResultProcessor.processPending db now evs).2.1.errors = db.errors := by
  intro evs
  induction evs with
  | nil => intro db; rfl
  | cons e rest ih =>
      intro db
      have h : (MHTResultProcessor.processPending db now (e :: rest)).2.1 =
          (MHTResultProcessor.processPending
            (MHTResultProcessor.process_single_result db e now).2.1 now
            rest).2.1 := by
        simp only [MHTResultProcessor.processPending]
      rw [h, ih]
      exact process_single_errors db e now

theorem process_now_errors (db : DB) (now : Nat) :
    (MHTResultProcessor.process_now db now).2.1.errors = db.errors :=
  processPending_errors now (MHTResultProcessor.get_pending_results db) db

theorem process_event_errors (db : DB) (ev : Event)
    (flow : String → List Assessment → Option Bool) (now : Nat) :
    (OutboundWorker.process_event db ev flow now).1.errors = db.errors := by
  unfold OutboundWorker.process_event
  cases OutboundWorker.workerParse ev.raw_data with
  | error m => rfl
  | ok d =>
      simp only
      split <;> rfl

/-- One mutating store operation, as invoked anywhere in the embedded
code. -/
inductive Step : DB → DB → Prop where
  | create (db : DB) (raw : RawPayload) (kind : String) (now : Nat) :
      Step db (MHTDatabase.create_event db raw kind now).2
  | convert (db : DB) (i : Nat) (d : DocData) (now : Nat) :
      Step db (MHTDatabase.update_event_converted db i d now).2
  | send (db : DB) (i : Nat) (r : Stored) (now : Nat) :
      Step db (MHTDatabase.update_event_sent db i r now).2
  | expire (db : DB) (i : Nat) (now : Nat) :
      Step db (MHTDatabase.expire_event db i now).2
  | recordError (db : DB) (i : Nat) (msg : String) (now : Nat) :
      Step db (MHTDatabase.record_error db i msg now).2
  | procStatus (db : DB) (i : Nat) (st : Int) (cd : Option ResultSummary)
      (rd : Option ResponseData) (now : Nat) :
      Step db (MHTResultProcessor.update_status db i st cd rd now).2
  | procError (db : DB) (i : Nat) (cs : Int) (msg : String) (now : Nat) :
      Step db (MHTResultProcessor.increment_error db i cs msg now).2
  | procSingle (db : DB) (ev : Event) (now : Nat) :
      Step db (MHTResultProcessor.process_single_result db ev now).2.1
  | procNow (db : DB) (now : Nat) :
      Step db (MHTResultProcessor.process_now db now).2.1
  | simCreate (db : DB) (i : Nat) (d : DocData) (scores : List Nat)
      (rid : Nat) (now : Nat) :
      Step db
        (MHTResponseSimulator.create_outbound_event db i d scores rid now).2
  | obStatus (db : DB) (i : Nat) (st : Int) (now : Nat) :
      Step db (OutboundWorker.update_event_status db i st now)
  | obProcess (db : DB) (ev : Event)
      (flow : String → List Assessment → Option Bool) (now : Nat) :
      Step db (OutboundWorker.process_event db ev flow now).1

/-- A database state reachable from a fresh store by any sequence of the
embedded operations. -/
def Reachable (db : DB) : Prop := Relation.ReflTransGen Step initDB db

theorem Step.errors_eq {a b : DB} (h : Step a b) : b.errors = a.errors := by
  cases h with
  | create raw kind now => rfl
  | convert i d now => rfl
  | send i r now => rfl
  | expire i now => rfl
  | recordError i msg now => rfl
  | procStatus i st cd rd now => rfl
  | procError i cs msg now => exact increment_error_errors a i cs msg now
  | procSingle ev now => exact process_single_errors a ev now
  | procNow now => exact process_now_errors a now
  | simCreate i d scores rid now => rfl
  | obStatus i st now => rfl
  | obProcess ev flow now => exact process_event_errors a ev flow now

theorem reachable_errors_nil {db : DB} (h : Reachable db) : db.errors = [] := by
  induction h with
  | refl => rfl
  | tail hsteps hstep ih => rw [hstep.errors_eq]; exact ih

/-- C4 amended: in every reachable state, an event's error_count is at
least (not equal to) the number of ErrorRecord rows referencing it: the
processor's error increment inserts no ErrorRecord at all, and
record_error — the one operation pairing the insert with the increment —
always rolls back, so the error table stays empty while error_count
grows. -/
theorem error_count_ge_error_records (db : DB) (h : Reachable db) :
    ∀ e ∈ db.events,
      (db.errors.filter (fun r => r.event_id == e.id)).length ≤
        e.error_count := by
  intro e he
  rw [reachable_errors_nil h]
  simp

/-- The two-step reachable store of the C4 counterexample: one created
event whose error count was incremented once. -/
def c4db1 : DB :=
  (MHTDatabase.create_event initDB .malformed "patient_extraction" 0).2

def c4db : DB := (MHTResultProcessor.increment_error c4db1 1 10 "boom" 1).2

/-- C4 counterexample: in the reachable state `c4db` the event has
error_count 1 while zero ErrorRecord rows reference it — the per-event
equality of error_count and ErrorRecord rows fails. -/
theorem error_count_without_error_record :
    Reachable c4db ∧
    (MHTDatabase.get_event c4db 1).map (·.error_count) = some 1 ∧
    c4db.errors.length = 0 ∧ (1 : Nat) ≠ 0 :=
  ⟨Relation.ReflTransGen.tail
    (Relation.ReflTransGen.single
      (Step.create initDB .malformed "patient_extraction" 0))
    (Step.procError c4db1 1 10 "boom" 1),
   by decide, rfl, by decide⟩

/-- Witness for C4 amended at the concrete reachable state `c4db` and its
single event. -/
theorem error_count_ge_error_records_witness :
    (c4db.errors.filter (fun r => r.event_id ==
      ({ id := 1, received_at := 0, direction := 'I',
         raw_data := some .malformed, converted_at := none,
         converted_data := none, sent_at := none, response_data := none,
         status := 0, kind := "patient_extraction", updated_at := some 1,
         error_count := 1 } : Event).id)).length ≤
    ({ id := 1, received_at := 0, direction := 'I',
       raw_data := some .malformed, converted_at := none,
       converted_data := none, sent_at := none, response_data := none,
       status := 0, kind := "patient_extraction", updated_at := some 1,
       error_count := 1 } : Event).error_count :=
  error_count_ge_error_records c4db
    (Relation.ReflTransGen.tail
      (Relation.ReflTransGen.single
        (Step.create initDB .malformed "patient_extraction" 0))
      (Step.procError c4db1 1 10 "boom" 1))
    _ (by decide)
